import Mathlib

/-!
Verification of the t1t2_mwpm noise-injection engine.

The repository's Python source is shallowly embedded here:
* stim circuit instructions become the `Instr` structure (name, qubit
  targets, numeric arguments); a circuit is a `List Instr` (the embedding
  works on flattened circuits, so `Circuit.flattened()` is the identity);
* Python floats become rationals, with the exponential function kept as an
  abstract parameter `exp : ℚ → ℚ` (every property below is about the
  structure and control flow of the code, not about values of `exp`);
* Python dicts become association lists with unique keys; a failing `d[k]`
  access (KeyError) is modelled through `Except`;
* Python exceptions become `Except String` results;
* Python sets of ints become lists used membership-wise; where the code
  iterates over a set, the embedding fixes one canonical enumeration
  (CPython's own set iteration order is hash-table order, unspecified by
  the language).  No theorem below relies on that enumeration matching
  CPython beyond membership: conclusions are order-insensitive, and the
  concrete evaluations use empty or singleton sets, where the order is
  forced.
-/

/-- A stim circuit instruction: gate name, qubit targets, gate arguments.
Annotation targets that are not qubit targets (e.g. DETECTOR rec targets)
are not used by the code under study and are represented by `[]`. -/
structure Instr where
  name : String
  targets : List ℕ
  args : List ℚ
deriving DecidableEq, Repr

/-- The instruction `stim.CircuitInstruction("TICK", [], [])`. -/
def tickInstr : Instr := ⟨ "TICK", [], []⟩

instance exceptDecEq {ε α : Type} [DecidableEq ε] [DecidableEq α] :
    DecidableEq (Except ε α) := fun a b =>
  match a, b with
  | .error e, .error f =>
    if h : e = f then .isTrue (congrArg Except.error h)
    else .isFalse (fun hh => h (Except.error.inj hh))
  | .ok x, .ok y =>
    if h : x = y then .isTrue (congrArg Except.ok h)
    else .isFalse (fun hh => h (Except.ok.inj hh))
  | .error _, .ok _ => .isFalse (fun hh => Except.noConfusion hh)
  | .ok _, .error _ => .isFalse (fun hh => Except.noConfusion hh)

/-- Whether a call raised an exception (`.error`) instead of returning. -/
def raised {α : Type} : Except String α → Bool
  | .ok _ => false
  | .error _ => true

/-- t1t2_noise.py line 8: the MEASUREMENTS name list. -/
def MEASUREMENTS : List String :=
  ["M", "MPP", "MR", "MRX", "MRY", "MRZ", "MX", "MY", "MZ"]

/-- t1t2_noise.py line 9: the annotation-name list (named ANNOTATIONS in
the source). -/
def ANNOTATION_OPS : List String :=
  ["QUBIT_COORDS", "DETECTOR", "OBSERVABLE_INCLUDE", "TICK", "SHIFT_COORDS"]

/-- Modelled from the spec: util.py and circuits/util.py import a `gates`
module (absent from src/) and classify an instruction as an annotation via
membership of `gates.ANNOTATIONS`.  Per the spec, annotations are the
boundary markers and detector/observable declarations, i.e. the same
module-level name list as in t1t2_noise.py. -/
def GATES_ANNOTATION_OPS : List String := ANNOTATION_OPS

/-- The stochastic (noise) instruction names of stim, i.e. the instructions
removed by `stim.Circuit.without_noise()`. -/
def NOISE_OPS : List String :=
  ["CORRELATED_ERROR", "DEPOLARIZE1", "DEPOLARIZE2", "E", "ELSE_CORRELATED_ERROR",
   "HERALDED_ERASE", "HERALDED_PAULI_CHANNEL_1", "PAULI_CHANNEL_1", "PAULI_CHANNEL_2",
   "X_ERROR", "Y_ERROR", "Z_ERROR"]

/-- Python dict access `d[k]` for int keys: the value, or a KeyError. -/
def dlookup (d : List (ℕ × ℚ)) (k : ℕ) : Except String ℚ :=
  match d.lookup k with
  | some v => .ok v
  | none => .error "KeyError"

/-- Python dict access `d[k]` for string keys: the value, or a KeyError. -/
def slookup (d : List (String × ℚ)) (k : String) : Except String ℚ :=
  match d.lookup k with
  | some v => .ok v
  | none => .error "KeyError"

/-- Python list access `l[i]` for a nonnegative index: the value, or an
IndexError. -/
def listIndex (l : List ℚ) (i : ℕ) : Except String ℚ :=
  match l.get? i with
  | some v => .ok v
  | none => .error "IndexError"

/-- models/util.py, idle_error_probs: validates the inputs, then returns
the Pauli-twirl error probabilities.  Note that the source rejects
`duration <= 0`, zero duration included (see the comment at
models/util.py line 33). -/
def idle_error_probs (exp : ℚ → ℚ) (relax_time deph_time duration : ℚ) :
    Except String (ℚ × ℚ × ℚ) :=
  if relax_time ≤ 0 then
    .error "The relaxation time must be positive"
  else if deph_time ≤ 0 then
    .error "The dephasing time must be positive"
  else if duration ≤ 0 then
    .error "The idling duration must be positive"
  else
    let relax_prob := 1 - exp (-duration / relax_time)
    let deph_prob := 1 - exp (-duration / deph_time)
    let x_prob := 0.25 * relax_prob
    let z_prob := 0.5 * deph_prob - 0.25 * relax_prob
    .ok (x_prob, x_prob, z_prob)

/-- t1t2_noise.py, get_perror_from_t1t2: returns (0, 0, 0) at `t == 0` and
otherwise computes the Pauli-twirl error probabilities with no validation
of the inputs; dividing by a zero T1 or T2 is a Python ZeroDivisionError. -/
def get_perror_from_t1t2 (exp : ℚ → ℚ) (t t1 t2 : ℚ) :
    Except String (ℚ × ℚ × ℚ) :=
  if t = 0 then .ok (0, 0, 0)
  else if t1 = 0 ∨ t2 = 0 then .error "ZeroDivisionError"
  else
    let px := 0.25 * (1 - exp (-t / t1))
    .ok (px, px, 0.5 * (1 - exp (-t / t2)) - 0.25 * (1 - exp (-t / t1)))

/-- A fixed concrete stand-in for the exponential, used to evaluate the
embedding on concrete inputs. -/
def e0 : ℚ → ℚ := fun _ => 0

/-- Ordered insert (no duplicates): builds the embedding's canonical
enumeration of a Python set of ints.  CPython's own iteration order is
hash-table order, which the language does not specify; only the
membership behaviour of the resulting list is treated as faithful. -/
def pyInsert (n : ℕ) : List ℕ → List ℕ
  | [] => [n]
  | m :: rest =>
    if n < m then n :: m :: rest
    else if n = m then m :: rest
    else m :: pyInsert n rest

/-- The Python set built from a list of ints, in the embedding's
canonical enumeration (faithful membership-wise; the real iteration
order is unspecified). -/
def pySet (l : List ℕ) : List ℕ := l.foldr pyInsert []

/-- Python set difference `a - b`: membership-faithful; the enumeration
order is inherited from `a` (an embedding choice — the iteration order of
a real CPython set difference is unspecified, so no theorem relies on
this order). -/
def pyDiff (a b : List ℕ) : List ℕ := a.filter (fun n => !(b.contains n))

/-- Python set intersection `a.intersection(b)` (used only for its
truthiness, i.e. membership-wise). -/
def pyInter (a b : List ℕ) : List ℕ := a.filter (fun n => b.contains n)

/-- Python proper-subset test `set(a) < set(b)`. -/
def isProperSubset (a b : List ℕ) : Bool :=
  a.all (b.contains ·) && !(b.all (a.contains ·))

/-- t1t2_noise.py lines 48-50: `for q in t1: if t2[q] > 2 * t1[q]: raise`.
Dict keys are unique, so the iterated pair value is the looked-up one. -/
def checkT1T2 : List (ℕ × ℚ) → List (ℕ × ℚ) → Except String Unit
  | [], _ => .ok ()
  | (q, v1) :: rest, t2 =>
    match dlookup t2 q with
    | .error e => .error e
    | .ok v2 =>
      if v2 > 2 * v1 then .error "T2 greater than 2 times T1"
      else checkT1T2 rest t2

/-- stim `Circuit.without_noise()`: noise instructions are removed and
noisy-measurement arguments are stripped. -/
def without_noise (c : List Instr) : List Instr :=
  (c.filter (fun i => !(NOISE_OPS.contains i.name))).map
    (fun i => if MEASUREMENTS.contains i.name then { i with args := [] } else i)

/-- The subsequence of non-noise instructions of a circuit. -/
def stripNoise (c : List Instr) : List Instr :=
  c.filter (fun i => !(NOISE_OPS.contains i.name))

/-- stim `Circuit.num_ticks`. -/
def numTicks (c : List Instr) : ℕ := (c.filter (fun i => i.name == "TICK")).length

/-- t1t2_noise.py lines 57-59: the set of qubits targeted by measurement
instructions, iterated ascending. -/
def measuredQubits (c : List Instr) : List ℕ :=
  pySet ((c.filter (fun i => MEASUREMENTS.contains i.name)).flatMap (·.targets))

/-- t1t2_noise.py lines 72-73: the duration table extended with a zero
duration for every annotation, `op_duration` taking precedence. -/
def durLookup (op_duration : List (String × ℚ)) (name : String) : Option ℚ :=
  match op_duration.lookup name with
  | some v => some v
  | none => if ANNOTATION_OPS.contains name then some 0 else none

/-- t1t2_noise.py line 93: `max([duration[i.name] for i in block], default=0)`. -/
def maxDuration (op_duration : List (String × ℚ)) (block : List Instr) : ℚ :=
  match block.map (fun i => (durLookup op_duration i.name).getD 0) with
  | [] => 0
  | d :: ds => ds.foldl max d

/-- t1t2_noise.py lines 95-101: one PAULI_CHANNEL_1 instruction per qubit
of the measured-qubit set, with probabilities from get_perror_from_t1t2. -/
def noiseBlock (exp : ℚ → ℚ) : List ℕ → List (ℕ × ℚ) → List (ℕ × ℚ) → ℚ →
    Except String (List Instr)
  | [], _, _, _ => .ok []
  | q :: rest, t1, t2, t =>
    match dlookup t1 q with
    | .error e => .error e
    | .ok v1 =>
      match dlookup t2 q with
      | .error e => .error e
      | .ok v2 =>
        match get_perror_from_t1t2 exp t v1 v2 with
        | .error e => .error e
        | .ok (px, py, pz) =>
          match noiseBlock exp rest t1 t2 t with
          | .error e => .error e
          | .ok more => .ok (⟨ "PAULI_CHANNEL_1", [q], [px, py, pz]⟩ :: more)

/-- t1t2_noise.py lines 84-110: the block loop of add_t1t2_noise.  `k` is
the enumeration index and `len` the length of the tick-extended circuit;
the TICK regenerated after a block is omitted for the artificially
appended final TICK (`k == len - 1`). -/
def t1t2Loop (exp : ℚ → ℚ) (op_duration : List (String × ℚ)) (qubits : List ℕ)
    (t1 t2 : List (ℕ × ℚ)) :
    List Instr → ℕ → ℕ → List Instr → List Instr → Except String (List Instr)
  | [], _, _, _, acc => .ok acc
  | instr :: rest, k, len, block, acc =>
    match durLookup op_duration instr.name with
    | none => .error (instr.name ++ " not in op_duration")
    | some _ =>
      if instr.name ≠ "TICK" then
        t1t2Loop exp op_duration qubits t1 t2 rest (k + 1) len (block ++ [instr]) acc
      else
        match noiseBlock exp qubits t1 t2 (maxDuration op_duration block) with
        | .error e => .error e
        | .ok noise =>
          t1t2Loop exp op_duration qubits t1 t2 rest (k + 1) len []
            (acc ++ block ++ noise ++ (if k ≠ len - 1 then [tickInstr] else []))

/-- t1t2_noise.py, add_t1t2_noise: validation followed by the block loop
over the circuit with an artificial trailing TICK. -/
def add_t1t2_noise (exp : ℚ → ℚ) (circuit : List Instr) (t1 t2 : List (ℕ × ℚ))
    (op_duration : List (String × ℚ)) : Except String (List Instr) :=
  match checkT1T2 t1 t2 with
  | .error e => .error e
  | .ok _ =>
    if circuit ≠ without_noise circuit then
      .error "The circuit provided contains noise"
    else if numTicks circuit = 0 then
      .error "The circuit must contain at least one TICK"
    else if isProperSubset (t1.map Prod.fst) (measuredQubits circuit) then
      .error "T1 must contain all the qubits in the circuit"
    else if isProperSubset (t2.map Prod.fst) (measuredQubits circuit) then
      .error "T2 must contain all the qubits in the circuit"
    else
      t1t2Loop exp op_duration (measuredQubits circuit) t1 t2
        (circuit ++ [tickInstr]) 0 (circuit ++ [tickInstr]).length [] []

/-- setup/setup.py: the validated coherence parameters (validation itself
is not needed by the claims below; theorems state the relevant facts as
hypotheses). -/
structure Setup where
  relax_times : List ℚ
  deph_times : List ℚ
  gate_durations : List (String × ℚ)

/-- models/library.py, DecoherenceModel.idle: one PAULI_CHANNEL_1
instruction per given qubit, with probabilities from idle_error_probs at
the qubit's own T1/T2. -/
def DecoherenceModel.idle (exp : ℚ → ℚ) (setup : Setup) :
    List ℕ → ℚ → Except String (List Instr)
  | [], _ => .ok []
  | q :: rest, duration =>
    match listIndex setup.relax_times q with
    | .error e => .error e
    | .ok relax_time =>
      match listIndex setup.deph_times q with
      | .error e => .error e
      | .ok deph_time =>
        match idle_error_probs exp relax_time deph_time duration with
        | .error e => .error e
        | .ok (px, py, pz) =>
          match DecoherenceModel.idle exp setup rest duration with
          | .error e => .error e
          | .ok more => .ok (⟨ "PAULI_CHANNEL_1", [q], [px, py, pz]⟩ :: more)

/-- models/library.py, DecoherenceModel.generic_op: the instruction itself
followed by idle noise on its target qubits for its own duration. -/
def DecoherenceModel.generic_op (exp : ℚ → ℚ) (setup : Setup) (name : String)
    (qubits : List ℕ) : Except String (List Instr) :=
  match slookup setup.gate_durations name with
  | .error e => .error e
  | .ok duration =>
    match DecoherenceModel.idle exp setup qubits duration with
    | .error e => .error e
    | .ok idles => .ok (⟨ name, qubits, []⟩ :: idles)

/-- Python attribute lookup of a per-operation hook with the signature
`(name, qubits)` on a DecoherenceModel: models/library.py defines exactly
one such hook, named `generic_op`; in particular the name `generic_gate`
requested by circuits/util.py resolves to nothing (AttributeError). -/
def DecoherenceModel.opHook (exp : ℚ → ℚ) (setup : Setup) (attr : String) :
    Option (String → List ℕ → Except String (List Instr)) :=
  if attr = "generic_op" then some (DecoherenceModel.generic_op exp setup)
  else none

/-- stim `Circuit.num_qubits`: one past the largest qubit index targeted
by any instruction (0 for a circuit with no targets). -/
def numQubits (c : List Instr) : ℕ :=
  c.foldr (fun i acc => max acc (i.targets.foldr (fun t a => max a (t + 1)) 0)) 0

/-- util.py lines 36-71: the layer loop of add_noise_to_stim, carrying the
active-qubit set and the recorded layer duration. -/
def stimLoop (exp : ℚ → ℚ) (setup : Setup) (qubit_inds : List ℕ) :
    List Instr → List ℕ → Option ℚ → List Instr → Except String (List Instr)
  | [], _, _, acc => .ok acc
  | instr :: rest, active, layerDur, acc =>
    if GATES_ANNOTATION_OPS.contains instr.name then
      if instr.name = "TICK" then
        match layerDur with
        | some d =>
          match DecoherenceModel.idle exp setup (pyDiff qubit_inds active) d with
          | .error e => .error e
          | .ok noise =>
            stimLoop exp setup qubit_inds rest [] none (acc ++ noise ++ [instr])
        | none => stimLoop exp setup qubit_inds rest active none (acc ++ [instr])
      else stimLoop exp setup qubit_inds rest active layerDur (acc ++ [instr])
    else
      match slookup setup.gate_durations instr.name with
      | .error e => .error e
      | .ok d =>
        if (match layerDur with | none => false | some ld => decide (ld ≠ d)) then
          .error "Each layer must should be composed of gates that are of the same duration."
        else if pyInter active instr.targets ≠ [] then
          .error "Multiple gates acting on the same qubits in a given layer."
        else
          match DecoherenceModel.generic_op exp setup instr.name instr.targets with
          | .error e => .error e
          | .ok ops =>
            stimLoop exp setup qubit_inds rest (instr.targets ++ active) (some d)
              (acc ++ ops)

/-- util.py, add_noise_to_stim: the qubit-count check followed by the
layer loop over the circuit. -/
def add_noise_to_stim (exp : ℚ → ℚ) (circuit : List Instr) (setup : Setup) :
    Except String (List Instr) :=
  if numQubits circuit ≠ setup.relax_times.length then
    .error "Number of qubits in circuit and the setup do not match."
  else
    stimLoop exp setup (List.range (numQubits circuit)) circuit [] none []

/-- circuits/util.py lines 33-49: the loop of the exported add_noise,
which dispatches each non-annotation instruction to the model hook named
`generic_gate`. -/
def circuitsLoop (exp : ℚ → ℚ) (setup : Setup) (qubit_inds : List ℕ) :
    List Instr → List Instr → Except String (List Instr)
  | [], acc => .ok acc
  | instr :: rest, acc =>
    if GATES_ANNOTATION_OPS.contains instr.name then
      circuitsLoop exp setup qubit_inds rest (acc ++ [instr])
    else
      match slookup setup.gate_durations instr.name with
      | .error e => .error e
      | .ok duration =>
        match DecoherenceModel.opHook exp setup "generic_gate" with
        | none => .error "AttributeError: DecoherenceModel object has no attribute generic_gate"
        | some hook =>
          match hook instr.name instr.targets with
          | .error e => .error e
          | .ok ops =>
            match DecoherenceModel.idle exp setup
                (pyDiff qubit_inds instr.targets) duration with
            | .error e => .error e
            | .ok idles => circuitsLoop exp setup qubit_inds rest (acc ++ ops ++ idles)

/-- circuits/util.py, add_noise (exported at the package top level): the
qubit-count check followed by the per-instruction loop. -/
def add_noise (exp : ℚ → ℚ) (circuit : List Instr) (setup : Setup) :
    Except String (List Instr) :=
  if numQubits circuit ≠ setup.relax_times.length then
    .error "Number of qubits in circuit and the setup do not match."
  else
    circuitsLoop exp setup (List.range (numQubits circuit)) circuit []

/-- The spec's layer-segmentation rules (section 4.2), as a predicate on
an instruction stream together with the recorded dwell time of the
current layer: the stream is about to exhibit an inconsistent layer
duration, i.e. following the stream (annotations pass through, a TICK
seals the layer, the first active operation records its duration, later
active operations of the layer agree with it) one reaches an active
operation whose duration differs from the recorded one. -/
inductive SpecDurationMismatch (gd : List (String × ℚ)) :
    List Instr → Option ℚ → Prop
  | mismatch {i : Instr} {rest : List Instr} {d dd : ℚ} :
      ¬GATES_ANNOTATION_OPS.contains i.name → gd.lookup i.name = some dd → dd ≠ d →
      SpecDurationMismatch gd (i :: rest) (some d)
  | ann_skip {i : Instr} {rest : List Instr} {ld : Option ℚ} :
      GATES_ANNOTATION_OPS.contains i.name → i.name ≠ "TICK" →
      SpecDurationMismatch gd rest ld → SpecDurationMismatch gd (i :: rest) ld
  | tick_seal {i : Instr} {rest : List Instr} {ld : Option ℚ} :
      i.name = "TICK" → SpecDurationMismatch gd rest none →
      SpecDurationMismatch gd (i :: rest) ld
  | op_step {i : Instr} {rest : List Instr} {ld : Option ℚ} {d : ℚ} :
      ¬GATES_ANNOTATION_OPS.contains i.name → gd.lookup i.name = some d →
      (ld = none ∨ ld = some d) →
      SpecDurationMismatch gd rest (some d) → SpecDurationMismatch gd (i :: rest) ld

/-- The spec's layer-segmentation rules (section 4.2), as a predicate on
an instruction stream together with the active-qubit set of the current
layer: following the stream one reaches an active operation targeting a
qubit already active in the same layer (a qubit conflict). -/
inductive SpecQubitConflict (gd : List (String × ℚ)) :
    List Instr → List ℕ → Option ℚ → Prop
  | conflict {i : Instr} {rest : List Instr} {active : List ℕ} {ld : Option ℚ} :
      ¬GATES_ANNOTATION_OPS.contains i.name → pyInter active i.targets ≠ [] →
      SpecQubitConflict gd (i :: rest) active ld
  | ann_skip {i : Instr} {rest : List Instr} {active : List ℕ} {ld : Option ℚ} :
      GATES_ANNOTATION_OPS.contains i.name → i.name ≠ "TICK" →
      SpecQubitConflict gd rest active ld → SpecQubitConflict gd (i :: rest) active ld
  | tick_seal {i : Instr} {rest : List Instr} {active : List ℕ} {d : ℚ} :
      i.name = "TICK" → SpecQubitConflict gd rest [] none →
      SpecQubitConflict gd (i :: rest) active (some d)
  | tick_pass {i : Instr} {rest : List Instr} {active : List ℕ} :
      i.name = "TICK" → SpecQubitConflict gd rest active none →
      SpecQubitConflict gd (i :: rest) active none
  | op_step {i : Instr} {rest : List Instr} {active : List ℕ} {ld : Option ℚ} {d : ℚ} :
      ¬GATES_ANNOTATION_OPS.contains i.name → gd.lookup i.name = some d →
      SpecQubitConflict gd rest (i.targets ++ active) (some d) →
      SpecQubitConflict gd (i :: rest) active ld

/-- The non-noise skeleton emitted by the t1t2 block loop for a given
pending block and remaining stream: non-TICK instructions accumulate into
the block, a TICK flushes the block followed by a regenerated TICK except
in the final position, and a block left pending at the end of the stream
is dropped (the loop always receives a stream ending in the artificial
TICK, so nothing is dropped in actual use). -/
def emitSpec : List Instr → List Instr → List Instr
  | _, [] => []
  | block, i :: rest =>
    if i.name = "TICK" then
      block ++ (if rest = [] then [] else [tickInstr]) ++ emitSpec [] rest
    else emitSpec (block ++ [i]) rest

theorem noiseBlock_nil (exp : ℚ → ℚ) (t1 t2 : List (ℕ × ℚ)) (t : ℚ) :
    noiseBlock exp [] t1 t2 t = .ok [] := rfl

theorem noiseBlock_cons (exp : ℚ → ℚ) {q : ℕ} {v1 v2 px py pz : ℚ}
    {more : List Instr} (rest : List ℕ) (t1 t2 : List (ℕ × ℚ)) (t : ℚ)
    (h1 : dlookup t1 q = .ok v1) (h2 : dlookup t2 q = .ok v2)
    (h3 : get_perror_from_t1t2 exp t v1 v2 = .ok (px, py, pz))
    (h4 : noiseBlock exp rest t1 t2 t = .ok more) :
    noiseBlock exp (q :: rest) t1 t2 t =
      .ok (⟨ "PAULI_CHANNEL_1", [q], [px, py, pz]⟩ :: more) := by
  simp only [noiseBlock, h1, h2, h3, h4]

theorem t1t2Loop_nil (exp : ℚ → ℚ) (od : List (String × ℚ)) (qs : List ℕ)
    (t1 t2 : List (ℕ × ℚ)) (k len : ℕ) (block acc : List Instr) :
    t1t2Loop exp od qs t1 t2 [] k len block acc = .ok acc := rfl

theorem t1t2Loop_cons_op (exp : ℚ → ℚ) (od : List (String × ℚ)) (qs : List ℕ)
    (t1 t2 : List (ℕ × ℚ)) {i : Instr} {v : ℚ} (rest : List Instr) (k len : ℕ)
    (block acc : List Instr) (hd : durLookup od i.name = some v)
    (ht : i.name ≠ "TICK") :
    t1t2Loop exp od qs t1 t2 (i :: rest) k len block acc =
      t1t2Loop exp od qs t1 t2 rest (k + 1) len (block ++ [i]) acc := by
  simp only [t1t2Loop, hd]
  rw [if_pos ht]

theorem t1t2Loop_cons_tick (exp : ℚ → ℚ) (od : List (String × ℚ)) (qs : List ℕ)
    (t1 t2 : List (ℕ × ℚ)) {i : Instr} {v : ℚ} {noise : List Instr}
    (rest : List Instr) (k len : ℕ) (block acc : List Instr)
    (hd : durLookup od i.name = some v) (ht : i.name = "TICK")
    (hn : noiseBlock exp qs t1 t2 (maxDuration od block) = .ok noise) :
    t1t2Loop exp od qs t1 t2 (i :: rest) k len block acc =
      t1t2Loop exp od qs t1 t2 rest (k + 1) len []
        (acc ++ block ++ noise ++ (if k ≠ len - 1 then [tickInstr] else [])) := by
  simp only [t1t2Loop, hd, hn]
  rw [if_neg (by simp [ht])]

theorem add_t1t2_noise_checks (exp : ℚ → ℚ) (circuit : List Instr)
    (t1 t2 : List (ℕ × ℚ)) (od : List (String × ℚ))
    (hck : checkT1T2 t1 t2 = .ok ())
    (hnf : circuit = without_noise circuit)
    (ht : numTicks circuit ≠ 0)
    (h1 : isProperSubset (t1.map Prod.fst) (measuredQubits circuit) = false)
    (h2 : isProperSubset (t2.map Prod.fst) (measuredQubits circuit) = false) :
    add_t1t2_noise exp circuit t1 t2 od =
      t1t2Loop exp od (measuredQubits circuit) t1 t2 (circuit ++ [tickInstr]) 0
        (circuit ++ [tickInstr]).length [] [] := by
  simp only [add_t1t2_noise, hck]
  rw [if_neg (by simp [← hnf]), if_neg ht, if_neg (by simp [h1]), if_neg (by simp [h2])]

theorem idle_nil (exp : ℚ → ℚ) (setup : Setup) (d : ℚ) :
    DecoherenceModel.idle exp setup [] d = .ok [] := rfl

theorem idle_cons (exp : ℚ → ℚ) (setup : Setup) {q : ℕ} {rt dt px py pz : ℚ}
    {more : List Instr} (rest : List ℕ) (d : ℚ)
    (h1 : listIndex setup.relax_times q = .ok rt)
    (h2 : listIndex setup.deph_times q = .ok dt)
    (h3 : idle_error_probs exp rt dt d = .ok (px, py, pz))
    (h4 : DecoherenceModel.idle exp setup rest d = .ok more) :
    DecoherenceModel.idle exp setup (q :: rest) d =
      .ok (⟨ "PAULI_CHANNEL_1", [q], [px, py, pz]⟩ :: more) := by
  simp only [DecoherenceModel.idle, h1, h2, h3, h4]

theorem generic_op_ok (exp : ℚ → ℚ) (setup : Setup) {name : String}
    {qubits : List ℕ} {d : ℚ} {idles : List Instr}
    (h1 : slookup setup.gate_durations name = .ok d)
    (h2 : DecoherenceModel.idle exp setup qubits d = .ok idles) :
    DecoherenceModel.generic_op exp setup name qubits =
      .ok (⟨ name, qubits, []⟩ :: idles) := by
  simp only [DecoherenceModel.generic_op, h1, h2]

theorem stimLoop_nil (exp : ℚ → ℚ) (setup : Setup) (qinds active : List ℕ)
    (ld : Option ℚ) (acc : List Instr) :
    stimLoop exp setup qinds [] active ld acc = .ok acc := rfl

theorem stimLoop_ann (exp : ℚ → ℚ) (setup : Setup) (qinds : List ℕ) {i : Instr}
    (rest : List Instr) (active : List ℕ) (ld : Option ℚ) (acc : List Instr)
    (ha : GATES_ANNOTATION_OPS.contains i.name = true) (ht : i.name ≠ "TICK") :
    stimLoop exp setup qinds (i :: rest) active ld acc =
      stimLoop exp setup qinds rest active ld (acc ++ [i]) := by
  simp only [stimLoop, ha, if_true]
  rw [if_neg ht]

theorem stimLoop_tick_none (exp : ℚ → ℚ) (setup : Setup) (qinds : List ℕ)
    {i : Instr} (rest : List Instr) (active : List ℕ) (acc : List Instr)
    (ht : i.name = "TICK") :
    stimLoop exp setup qinds (i :: rest) active none acc =
      stimLoop exp setup qinds rest active none (acc ++ [i]) := by
  have ha : GATES_ANNOTATION_OPS.contains i.name = true := by
    simp [GATES_ANNOTATION_OPS, ANNOTATION_OPS, ht]
  simp only [stimLoop, ha, if_true]
  rw [if_pos ht]

theorem stimLoop_tick_some (exp : ℚ → ℚ) (setup : Setup) (qinds : List ℕ)
    {i : Instr} {d : ℚ} {noise : List Instr} (rest : List Instr)
    (active : List ℕ) (acc : List Instr) (ht : i.name = "TICK")
    (hn : DecoherenceModel.idle exp setup (pyDiff qinds active) d = .ok noise) :
    stimLoop exp setup qinds (i :: rest) active (some d) acc =
      stimLoop exp setup qinds rest [] none (acc ++ noise ++ [i]) := by
  have ha : GATES_ANNOTATION_OPS.contains i.name = true := by
    simp [GATES_ANNOTATION_OPS, ANNOTATION_OPS, ht]
  simp only [stimLoop, ha, if_true, hn]
  rw [if_pos ht]

theorem stimLoop_op (exp : ℚ → ℚ) (setup : Setup) (qinds : List ℕ) {i : Instr}
    {d : ℚ} {ops : List Instr} (rest : List Instr) (active : List ℕ)
    (ld : Option ℚ) (acc : List Instr)
    (ha : ¬GATES_ANNOTATION_OPS.contains i.name = true)
    (hl : slookup setup.gate_durations i.name = .ok d)
    (hld : ld = none ∨ ld = some d)
    (hc : pyInter active i.targets = [])
    (hop : DecoherenceModel.generic_op exp setup i.name i.targets = .ok ops) :
    stimLoop exp setup qinds (i :: rest) active ld acc =
      stimLoop exp setup qinds rest (i.targets ++ active) (some d) (acc ++ ops) := by
  simp only [stimLoop, hl, hop]
  rw [if_neg ha, if_neg (by rcases hld with rfl | rfl <;> simp), if_neg (by simp [hc])]

theorem add_noise_to_stim_check (exp : ℚ → ℚ) (circuit : List Instr) (setup : Setup)
    (h : numQubits circuit = setup.relax_times.length) :
    add_noise_to_stim exp circuit setup =
      stimLoop exp setup (List.range (numQubits circuit)) circuit [] none [] := by
  rw [add_noise_to_stim, if_neg (by simp [h])]

/-- C1: for every duration > 0, t1 > 0, t2 > 0 with t2 ≤ 2·t1, both
implementations of the error-probability model return exactly
pX = pY = 0.25·(1 − exp(−duration/t1)) and
pZ = 0.5·(1 − exp(−duration/t2)) − 0.25·(1 − exp(−duration/t1)), as pure
functions of their inputs. -/
theorem C1_perror_formula (exp : ℚ → ℚ) (duration t1 t2 : ℚ)
    (hd : 0 < duration) (h1 : 0 < t1) (h2 : 0 < t2) (h21 : t2 ≤ 2 * t1) :
    get_perror_from_t1t2 exp duration t1 t2 =
      .ok (0.25 * (1 - exp (-duration / t1)), 0.25 * (1 - exp (-duration / t1)),
        0.5 * (1 - exp (-duration / t2)) - 0.25 * (1 - exp (-duration / t1))) ∧
    idle_error_probs exp t1 t2 duration =
      .ok (0.25 * (1 - exp (-duration / t1)), 0.25 * (1 - exp (-duration / t1)),
        0.5 * (1 - exp (-duration / t2)) - 0.25 * (1 - exp (-duration / t1))) := by
  constructor
  · rw [get_perror_from_t1t2, if_neg (by linarith), if_neg (by push_neg; constructor <;> linarith)]
  · rw [idle_error_probs, if_neg (by linarith), if_neg (by linarith), if_neg (by linarith)]

theorem C1_perror_formula_witness :
    (0:ℚ) < 1 ∧ (1:ℚ) ≤ 2 * 1 ∧
    get_perror_from_t1t2 e0 1 1 1 =
      .ok (0.25 * (1 - e0 (-1 / 1)), 0.25 * (1 - e0 (-1 / 1)),
        0.5 * (1 - e0 (-1 / 1)) - 0.25 * (1 - e0 (-1 / 1))) ∧
    idle_error_probs e0 1 1 1 =
      .ok (0.25 * (1 - e0 (-1 / 1)), 0.25 * (1 - e0 (-1 / 1)),
        0.5 * (1 - e0 (-1 / 1)) - 0.25 * (1 - e0 (-1 / 1))) :=
  ⟨by norm_num, by norm_num,
    C1_perror_formula e0 1 1 1 (by norm_num) (by norm_num) (by norm_num) (by norm_num)⟩

/-- C2 counterexample: at t1 = t2 = 1 > 0 and duration = 0, the
idle_error_probs implementation does not return (0, 0, 0): it raises
(models/util.py line 38 rejects `duration <= 0`). -/
theorem C2_zero_duration_cex :
    idle_error_probs e0 1 1 0 = .error "The idling duration must be positive" ∧
    idle_error_probs e0 1 1 0 ≠ .ok (0, 0, 0) := by
  constructor <;> decide

/-- C2 (amended): for every t1 > 0 and t2 > 0, calling with duration = 0
returns (0, 0, 0) from get_perror_from_t1t2, while idle_error_probs
instead fails (it requires a strictly positive duration). -/
theorem C2_zero_duration_amended (exp : ℚ → ℚ) (t1 t2 : ℚ)
    (h1 : 0 < t1) (h2 : 0 < t2) :
    get_perror_from_t1t2 exp 0 t1 t2 = .ok (0, 0, 0) ∧
    idle_error_probs exp t1 t2 0 = .error "The idling duration must be positive" := by
  constructor
  · rw [get_perror_from_t1t2, if_pos rfl]
  · rw [idle_error_probs, if_neg (by linarith), if_neg (by linarith), if_pos le_rfl]

theorem C2_zero_duration_amended_witness :
    (0:ℚ) < 1 ∧
    get_perror_from_t1t2 e0 0 1 1 = .ok (0, 0, 0) ∧
    idle_error_probs e0 1 1 0 = .error "The idling duration must be positive" :=
  ⟨by norm_num, C2_zero_duration_amended e0 1 1 (by norm_num) (by norm_num)⟩

/-- C3 counterexample: at t1 = −1 ≤ 0 (t2 = 1, duration = 1) the claim
demands a failure from both implementations, but get_perror_from_t1t2
succeeds, returning a value (it performs no parameter validation). -/
theorem C3_raises_iff_cex :
    raised (get_perror_from_t1t2 e0 1 (-1) 1) = false ∧
    get_perror_from_t1t2 e0 1 (-1) 1 = .ok (0.25, 0.25, 0.25) := by
  have h : get_perror_from_t1t2 e0 1 (-1) 1 = .ok (0.25, 0.25, 0.25) := by
    rw [get_perror_from_t1t2]
    norm_num [e0]
  exact ⟨by rw [h]; rfl, h⟩

/-- C3 (amended): idle_error_probs fails exactly when t1 ≤ 0 or t2 ≤ 0 or
duration ≤ 0 (so also at duration = 0, unlike the claim), and succeeds
otherwise; get_perror_from_t1t2 performs no parameter validation: it fails
exactly when the duration is nonzero and t1 = 0 or t2 = 0 (a division by
zero), succeeding in particular for negative t1, t2 or duration. -/
theorem C3_raises_iff_amended (exp : ℚ → ℚ) (t1 t2 duration : ℚ) :
    ((∃ e, idle_error_probs exp t1 t2 duration = .error e) ↔
      t1 ≤ 0 ∨ t2 ≤ 0 ∨ duration ≤ 0) ∧
    ((∃ e, get_perror_from_t1t2 exp duration t1 t2 = .error e) ↔
      duration ≠ 0 ∧ (t1 = 0 ∨ t2 = 0)) := by
  constructor
  · rw [idle_error_probs]
    split_ifs with hr hd hdur
    · simp [hr]
    · simp [hr, hd]
    · simp [hr, hd, hdur]
    · simp [hr, hd, hdur]
  · rw [get_perror_from_t1t2]
    split_ifs with ht hz
    · simp [ht]
    · simp [ht, hz]
    · simp [ht, hz]

theorem stimLoop_op_mismatch (exp : ℚ → ℚ) (setup : Setup) (qinds : List ℕ)
    {i : Instr} {d dd : ℚ} (rest : List Instr) (active : List ℕ) (acc : List Instr)
    (hann : ¬GATES_ANNOTATION_OPS.contains i.name = true)
    (hl : slookup setup.gate_durations i.name = .ok dd) (hne : dd ≠ d) :
    stimLoop exp setup qinds (i :: rest) active (some d) acc =
      .error "Each layer must should be composed of gates that are of the same duration." := by
  simp only [stimLoop, hl]
  rw [if_neg hann, if_pos (by simpa using Ne.symm hne)]

theorem specDurationMismatch_raises (exp : ℚ → ℚ) (setup : Setup) (qinds : List ℕ)
    {instrs : List Instr} {ld : Option ℚ}
    (h : SpecDurationMismatch setup.gate_durations instrs ld) :
    ∀ (active : List ℕ) (acc : List Instr),
      raised (stimLoop exp setup qinds instrs active ld acc) = true := by
  induction h with
  | @mismatch i rest d dd hann hlk hne =>
    intro active acc
    rw [stimLoop_op_mismatch exp setup qinds rest active acc hann (by rw [slookup, hlk]) hne]
    rfl
  | @ann_skip i rest ld hann ht _ ih =>
    intro active acc
    rw [stimLoop_ann exp setup qinds rest active ld acc hann ht]
    exact ih active (acc ++ [i])
  | @tick_seal i rest ld ht _ ih =>
    intro active acc
    have ha : GATES_ANNOTATION_OPS.contains i.name = true := by
      simp [GATES_ANNOTATION_OPS, ANNOTATION_OPS, ht]
    cases ld with
    | none =>
      rw [stimLoop_tick_none exp setup qinds rest active acc ht]
      exact ih active (acc ++ [i])
    | some d =>
      cases hn : DecoherenceModel.idle exp setup (pyDiff qinds active) d with
      | error e =>
        simp only [stimLoop, ha, if_true, hn]
        rw [if_pos ht]
        rfl
      | ok noise =>
        rw [stimLoop_tick_some exp setup qinds rest active acc ht hn]
        exact ih [] (acc ++ noise ++ [i])
  | @op_step i rest ld d hann hlk hld _ ih =>
    intro active acc
    have hsl : slookup setup.gate_durations i.name = .ok d := by rw [slookup, hlk]
    by_cases hc : pyInter active i.targets = []
    · cases hop : DecoherenceModel.generic_op exp setup i.name i.targets with
      | error e =>
        simp only [stimLoop, hsl, hop]
        rw [if_neg hann, if_neg (by rcases hld with rfl | rfl <;> simp), if_neg (by simp [hc])]
        rfl
      | ok ops =>
        rw [stimLoop_op exp setup qinds rest active ld acc hann hsl hld hc hop]
        exact ih (i.targets ++ active) (acc ++ ops)
    · simp only [stimLoop, hsl]
      rw [if_neg hann, if_neg (by rcases hld with rfl | rfl <;> simp), if_pos hc]
      rfl

theorem specQubitConflict_raises (exp : ℚ → ℚ) (setup : Setup) (qinds : List ℕ)
    {instrs : List Instr} {active : List ℕ} {ld : Option ℚ}
    (h : SpecQubitConflict setup.gate_durations instrs active ld) :
    ∀ (acc : List Instr),
      raised (stimLoop exp setup qinds instrs active ld acc) = true := by
  induction h with
  | @conflict i rest active ld hann hint =>
    intro acc
    cases hsl : slookup setup.gate_durations i.name with
    | error e =>
      simp only [stimLoop, hsl]
      rw [if_neg hann]
      rfl
    | ok d =>
      by_cases hmb : (match ld with | none => false | some l => decide (l ≠ d)) = true
      · simp only [stimLoop, hsl]
        rw [if_neg hann, if_pos hmb]
        rfl
      · simp only [stimLoop, hsl]
        rw [if_neg hann, if_neg hmb, if_pos hint]
        rfl
  | @ann_skip i rest active ld hann ht _ ih =>
    intro acc
    rw [stimLoop_ann exp setup qinds rest active ld acc hann ht]
    exact ih (acc ++ [i])
  | @tick_seal i rest active d ht _ ih =>
    intro acc
    have ha : GATES_ANNOTATION_OPS.contains i.name = true := by
      simp [GATES_ANNOTATION_OPS, ANNOTATION_OPS, ht]
    cases hn : DecoherenceModel.idle exp setup (pyDiff qinds active) d with
    | error e =>
      simp only [stimLoop, ha, if_true, hn]
      rw [if_pos ht]
      rfl
    | ok noise =>
      rw [stimLoop_tick_some exp setup qinds rest active acc ht hn]
      exact ih (acc ++ noise ++ [i])
  | @tick_pass i rest active ht _ ih =>
    intro acc
    rw [stimLoop_tick_none exp setup qinds rest active acc ht]
    exact ih (acc ++ [i])
  | @op_step i rest active ld d hann hlk _ ih =>
    intro acc
    have hsl : slookup setup.gate_durations i.name = .ok d := by rw [slookup, hlk]
    by_cases hmb : (match ld with | none => false | some l => decide (l ≠ d)) = true
    · simp only [stimLoop, hsl]
      rw [if_neg hann, if_pos hmb]
      rfl
    · by_cases hc : pyInter active i.targets = []
      · cases hop : DecoherenceModel.generic_op exp setup i.name i.targets with
        | error e =>
          simp only [stimLoop, hsl, hop]
          rw [if_neg hann, if_neg hmb, if_neg (by simp [hc])]
          rfl
        | ok ops =>
          have hld : ld = none ∨ ld = some d := by
            cases ld with
            | none => exact Or.inl rfl
            | some l =>
              refine Or.inr ?_
              have : ¬l ≠ d := by simpa using hmb
              simp [not_not.mp this]
          rw [stimLoop_op exp setup qinds rest active ld acc hann hsl hld hc hop]
          exact ih (acc ++ ops)
      · simp only [stimLoop, hsl]
        rw [if_neg hann, if_neg hmb, if_pos hc]
        rfl

/-- C6 counterexample: the add_t1t2_noise transformation produces an
output (does not fail) on a circuit whose single layer contains two active
operations with different declared durations (H with duration 1, X with
duration 2); it takes the maximum duration instead of validating. -/
theorem C6_layer_duration_cex :
    add_t1t2_noise e0 [⟨ "H", [0], []⟩, ⟨ "X", [1], []⟩, tickInstr]
      [] [] [("H", 1), ("X", 2)] =
    .ok [⟨ "H", [0], []⟩, ⟨ "X", [1], []⟩, tickInstr] := by
  rw [add_t1t2_noise_checks e0 _ _ _ _ (by rfl) (by rfl) (by decide) (by rfl) (by rfl)]
  have hq : measuredQubits [⟨ "H", [0], []⟩, ⟨ "X", [1], []⟩, tickInstr] = [] := rfl
  rw [hq]
  simp only [List.cons_append, List.nil_append]
  rw [t1t2Loop_cons_op e0 _ _ _ _ _ _ _ _ _ (by rfl) (by decide)]
  rw [t1t2Loop_cons_op e0 _ _ _ _ _ _ _ _ _ (by rfl) (by decide)]
  rw [t1t2Loop_cons_tick e0 _ _ _ _ _ _ _ _ _ (by rfl) (by rfl) (noiseBlock_nil e0 _ _ _)]
  rw [t1t2Loop_cons_tick e0 _ _ _ _ _ _ _ _ _ (by rfl) (by rfl) (noiseBlock_nil e0 _ _ _)]
  rw [t1t2Loop_nil]
  norm_num [tickInstr]

/-- C6 (amended): the layer-segmentation duration rule holds for
add_noise_to_stim only: whenever the stream, segmented by the spec's rules
(the first active operation of a layer records the dwell time, later
active operations must agree with it, a TICK seals the layer), reaches an
active operation whose duration differs from the recorded dwell time, the
transformation fails rather than producing output.  add_t1t2_noise
performs no such check (see the counterexample: it takes the maximum
duration of the layer). -/
theorem C6_layer_duration_amended (exp : ℚ → ℚ) (circuit : List Instr)
    (setup : Setup)
    (h : SpecDurationMismatch setup.gate_durations circuit none) :
    raised (add_noise_to_stim exp circuit setup) = true := by
  rw [add_noise_to_stim]
  by_cases hq : numQubits circuit ≠ setup.relax_times.length
  · rw [if_pos hq]
    rfl
  · rw [if_neg hq]
    exact specDurationMismatch_raises exp setup _ h [] []

theorem C6_layer_duration_amended_witness :
    raised (add_noise_to_stim e0 [⟨ "H", [0], []⟩, ⟨ "X", [1], []⟩, tickInstr]
      (Setup.mk [1, 1] [1, 1] [("H", 1), ("X", 2)])) = true :=
  C6_layer_duration_amended e0 _ _
    (.op_step (by decide) (by rfl) (Or.inl rfl)
      (.mismatch (by decide) (by rfl) (by norm_num)))

/-- C7 counterexample: the add_t1t2_noise transformation produces an
output (does not fail) on a circuit whose single layer contains two active
operations targeting the same qubit 0. -/
theorem C7_qubit_conflict_cex :
    add_t1t2_noise e0 [⟨ "H", [0], []⟩, ⟨ "H", [0], []⟩, tickInstr]
      [] [] [("H", 1)] =
    .ok [⟨ "H", [0], []⟩, ⟨ "H", [0], []⟩, tickInstr] := by
  rw [add_t1t2_noise_checks e0 _ _ _ _ (by rfl) (by rfl) (by decide) (by rfl) (by rfl)]
  have hq : measuredQubits [⟨ "H", [0], []⟩, ⟨ "H", [0], []⟩, tickInstr] = [] := rfl
  rw [hq]
  simp only [List.cons_append, List.nil_append]
  rw [t1t2Loop_cons_op e0 _ _ _ _ _ _ _ _ _ (by rfl) (by decide)]
  rw [t1t2Loop_cons_op e0 _ _ _ _ _ _ _ _ _ (by rfl) (by decide)]
  rw [t1t2Loop_cons_tick e0 _ _ _ _ _ _ _ _ _ (by rfl) (by rfl) (noiseBlock_nil e0 _ _ _)]
  rw [t1t2Loop_cons_tick e0 _ _ _ _ _ _ _ _ _ (by rfl) (by rfl) (noiseBlock_nil e0 _ _ _)]
  rw [t1t2Loop_nil]
  norm_num [tickInstr]

/-- C7 (amended): the intra-layer qubit-disjointness rule holds for
add_noise_to_stim only: whenever the stream, segmented by the spec's
rules, reaches an active operation targeting a qubit already recorded in
the layer's active-qubit set, the transformation fails rather than
producing output.  add_t1t2_noise performs no such check (see the
counterexample). -/
theorem C7_qubit_conflict_amended (exp : ℚ → ℚ) (circuit : List Instr)
    (setup : Setup)
    (h : SpecQubitConflict setup.gate_durations circuit [] none) :
    raised (add_noise_to_stim exp circuit setup) = true := by
  rw [add_noise_to_stim]
  by_cases hq : numQubits circuit ≠ setup.relax_times.length
  · rw [if_pos hq]
    rfl
  · rw [if_neg hq]
    exact specQubitConflict_raises exp setup _ h []

theorem C7_qubit_conflict_amended_witness :
    raised (add_noise_to_stim e0 [⟨ "H", [0], []⟩, ⟨ "X", [0], []⟩, tickInstr]
      (Setup.mk [1] [1] [("H", 1), ("X", 1)])) = true :=
  C7_qubit_conflict_amended e0 _ _
    (.op_step (by decide) (by rfl)
      (.conflict (by decide) (by decide)))

/-- C8 counterexample: qubit 1 appears in an active operation (H 1) and
has no entry in the coherence parameters, yet add_t1t2_noise succeeds,
because the coverage check only inspects measured qubits (here only
qubit 0, which is covered). -/
theorem C8_qubit_not_covered_cex :
    add_t1t2_noise e0 [⟨ "H", [1], []⟩, ⟨ "M", [0], []⟩, tickInstr]
      [(0, 2)] [(0, 2)] [("H", 1), ("M", 1)] =
    .ok [⟨ "H", [1], []⟩, ⟨ "M", [0], []⟩,
      ⟨ "PAULI_CHANNEL_1", [0], [1/4, 1/4, 1/4]⟩, tickInstr,
      ⟨ "PAULI_CHANNEL_1", [0], [0, 0, 0]⟩] := by
  rw [add_t1t2_noise_checks e0 _ _ _ _
    (by norm_num [checkT1T2, dlookup, List.lookup]) (by rfl) (by decide) (by rfl) (by rfl)]
  have hq : measuredQubits [⟨ "H", [1], []⟩, ⟨ "M", [0], []⟩, tickInstr] = [0] := by rfl
  rw [hq]
  simp only [List.cons_append, List.nil_append]
  rw [t1t2Loop_cons_op e0 _ _ _ _ _ _ _ _ _ (by rfl) (by decide)]
  rw [t1t2Loop_cons_op e0 _ _ _ _ _ _ _ _ _ (by rfl) (by decide)]
  have hmax : maxDuration [("H", (1:ℚ)), ("M", 1)]
      ([] ++ [⟨ "H", [1], []⟩] ++ [⟨ "M", [0], []⟩]) = 1 := by rfl
  have hnb : noiseBlock e0 [0] [(0, 2)] [(0, 2)]
      (maxDuration [("H", (1:ℚ)), ("M", 1)] ([] ++ [⟨ "H", [1], []⟩] ++ [⟨ "M", [0], []⟩])) =
      .ok [⟨ "PAULI_CHANNEL_1", [0], [1/4, 1/4, 1/4]⟩] := by
    rw [hmax]
    refine noiseBlock_cons e0 _ _ _ _ (by rfl) (by rfl) ?_ (noiseBlock_nil e0 _ _ _)
    rw [get_perror_from_t1t2]
    norm_num [e0]
  rw [t1t2Loop_cons_tick e0 _ _ _ _ _ _ _ _ _ (by rfl) (by rfl) hnb]
  have hnb2 : noiseBlock e0 [0] [(0, 2)] [(0, 2)]
      (maxDuration [("H", (1:ℚ)), ("M", 1)] []) =
      .ok [⟨ "PAULI_CHANNEL_1", [0], [0, 0, 0]⟩] := by
    refine noiseBlock_cons e0 _ _ _ _ (by rfl) (by rfl) ?_ (noiseBlock_nil e0 _ _ _)
    rw [show maxDuration [("H", (1:ℚ)), ("M", 1)] [] = 0 from rfl, get_perror_from_t1t2]
    norm_num
  rw [t1t2Loop_cons_tick e0 _ _ _ _ _ _ _ _ _ (by rfl) (by rfl) hnb2]
  rw [t1t2Loop_nil]
  norm_num [tickInstr]

/-- C8 (amended): add_t1t2_noise checks coverage only against the set of
qubits targeted by measurement instructions: when the key set of the T1
table is a proper subset of the measured-qubit set (and the earlier checks
pass), it fails with the T1-coverage error; a qubit appearing only in
non-measurement operations is not checked (see the counterexample). -/
theorem C8_qubit_not_covered_amended (exp : ℚ → ℚ) (circuit : List Instr)
    (t1 t2 : List (ℕ × ℚ)) (op_duration : List (String × ℚ))
    (hck : checkT1T2 t1 t2 = .ok ())
    (hnf : circuit = without_noise circuit)
    (ht : numTicks circuit ≠ 0)
    (hsub : isProperSubset (t1.map Prod.fst) (measuredQubits circuit) = true) :
    add_t1t2_noise exp circuit t1 t2 op_duration =
      .error "T1 must contain all the qubits in the circuit" := by
  simp only [add_t1t2_noise, hck]
  rw [if_neg (by simp [← hnf]), if_neg ht, if_pos (by simp [hsub])]

theorem C8_qubit_not_covered_amended_witness :
    add_t1t2_noise e0 [⟨ "M", [0], []⟩, tickInstr] [] [] [("M", 1)] =
      .error "T1 must contain all the qubits in the circuit" :=
  C8_qubit_not_covered_amended e0 _ _ _ _ (by rfl) (by rfl) (by decide) (by rfl)

/-- C9: a circuit that already contains a stochastic operation makes
add_t1t2_noise fail with the preexisting-noise error (given that the
preceding T1/T2 validation passes); the error is raised up front, before
any transformation output exists. -/
theorem C9_preexisting_noise (exp : ℚ → ℚ) (circuit : List Instr)
    (t1 t2 : List (ℕ × ℚ)) (op_duration : List (String × ℚ))
    (hnoise : ∃ i ∈ circuit, i.name ∈ NOISE_OPS)
    (hck : checkT1T2 t1 t2 = .ok ()) :
    add_t1t2_noise exp circuit t1 t2 op_duration =
      .error "The circuit provided contains noise" := by
  have hne : circuit ≠ without_noise circuit := by
    intro heq
    have hlt : (circuit.filter (fun i => !(NOISE_OPS.contains i.name))).length
        < circuit.length := by
      rw [List.length_filter_lt_length_iff_exists]
      obtain ⟨i, hi, hn⟩ := hnoise
      exact ⟨i, hi, by simp [hn]⟩
    have hlen : (without_noise circuit).length =
        (circuit.filter (fun i => !(NOISE_OPS.contains i.name))).length := by
      simp [without_noise]
    have h2 : circuit.length = (without_noise circuit).length := by rw [← heq]
    rw [hlen] at h2
    omega
  simp only [add_t1t2_noise, hck]
  rw [if_pos hne]

theorem C9_preexisting_noise_witness :
    add_t1t2_noise e0 [⟨ "X_ERROR", [0], []⟩, tickInstr] [] [] [] =
      .error "The circuit provided contains noise" :=
  C9_preexisting_noise e0 _ _ _ _ (by decide) (by rfl)

theorem circuitsLoop_active_raises (exp : ℚ → ℚ) (setup : Setup) (qinds : List ℕ) :
    ∀ (instrs acc : List Instr),
      (∃ i ∈ instrs, ¬GATES_ANNOTATION_OPS.contains i.name = true) →
      raised (circuitsLoop exp setup qinds instrs acc) = true := by
  intro instrs
  induction instrs with
  | nil =>
    rintro acc ⟨i, hi, _⟩
    cases hi
  | cons i rest ih =>
    rintro acc ⟨j, hj, hjact⟩
    by_cases hi : GATES_ANNOTATION_OPS.contains i.name = true
    · rw [circuitsLoop, if_pos hi]
      apply ih
      rcases List.mem_cons.mp hj with rfl | hj2
      · exact absurd hi hjact
      · exact ⟨j, hj2, hjact⟩
    · cases hl : slookup setup.gate_durations i.name with
      | error e =>
        simp only [circuitsLoop, hl]
        rw [if_neg hi]
        rfl
      | ok d =>
        simp only [circuitsLoop, hl]
        rw [if_neg hi]
        have hh : DecoherenceModel.opHook exp setup "generic_gate" = none := by
          rw [DecoherenceModel.opHook, if_neg (by decide)]
        rw [hh]
        rfl

/-- C10: for every circuit containing at least one non-annotation (active)
operation, the exported add_noise entry point fails before emitting that
operation: the per-operation hook it invokes is named generic_gate, which
no model defines (the concrete DecoherenceModel defines generic_op), so it
never returns a noisy circuit for such inputs. -/
theorem C10_generic_gate_missing (exp : ℚ → ℚ) (circuit : List Instr)
    (setup : Setup)
    (hact : ∃ i ∈ circuit, ¬GATES_ANNOTATION_OPS.contains i.name = true) :
    raised (add_noise exp circuit setup) = true := by
  rw [add_noise]
  by_cases hq : numQubits circuit ≠ setup.relax_times.length
  · rw [if_pos hq]
    rfl
  · rw [if_neg hq]
    exact circuitsLoop_active_raises exp setup _ circuit [] hact

theorem C10_generic_gate_missing_witness :
    raised (add_noise e0 [⟨ "H", [0], []⟩] (Setup.mk [1] [1] [("H", 1)])) = true :=
  C10_generic_gate_missing e0 _ _ (by decide)

theorem stripNoise_append (a b : List Instr) :
    stripNoise (a ++ b) = stripNoise a ++ stripNoise b := by
  simp [stripNoise]

theorem stripNoise_eq_self {l : List Instr} (h : ∀ i ∈ l, ¬i.name ∈ NOISE_OPS) :
    stripNoise l = l := by
  rw [stripNoise, List.filter_eq_self]
  intro i hi
  simpa using h i hi

theorem stripNoise_pauli (q : ℕ) (a : List ℚ) (l : List Instr) :
    stripNoise (⟨ "PAULI_CHANNEL_1", q :: [], a⟩ :: l) = stripNoise l := by
  rw [stripNoise, List.filter_cons]
  norm_num [NOISE_OPS, stripNoise]

theorem noiseBlock_strip (exp : ℚ → ℚ) (t1 t2 : List (ℕ × ℚ)) (t : ℚ) :
    ∀ (qs : List ℕ) (l : List Instr), noiseBlock exp qs t1 t2 t = .ok l →
      stripNoise l = [] := by
  intro qs
  induction qs with
  | nil =>
    intro l h
    obtain rfl := Except.ok.inj h
    rfl
  | cons q rest ih =>
    intro l h
    rw [noiseBlock] at h
    split at h
    · exact Except.noConfusion h
    · split at h
      · exact Except.noConfusion h
      · split at h
        · exact Except.noConfusion h
        · split at h
          · exact Except.noConfusion h
          · rename_i more h4
            obtain rfl := Except.ok.inj h
            rw [stripNoise_pauli]
            exact ih more h4

theorem emitSpec_append_tick :
    ∀ (c block : List Instr), (∀ j ∈ c, j.name = "TICK" → j = tickInstr) →
      emitSpec block (c ++ [tickInstr]) = block ++ c := by
  intro c
  induction c with
  | nil =>
    intro block _
    rw [List.nil_append, emitSpec, if_pos (by rfl)]
    simp [emitSpec]
  | cons j rest ih =>
    intro block hj
    by_cases ht : j.name = "TICK"
    · have hjt : j = tickInstr := hj j (by simp) ht
      rw [List.cons_append, emitSpec, if_pos ht,
        if_neg (by simp), ih [] (fun x hx h2 => hj x (by simp [hx]) h2)]
      rw [hjt]
      simp
    · rw [List.cons_append, emitSpec, if_neg ht,
        ih (block ++ [j]) (fun x hx h2 => hj x (by simp [hx]) h2)]
      simp

theorem t1t2Loop_strip (exp : ℚ → ℚ) (od : List (String × ℚ)) (qs : List ℕ)
    (t1 t2 : List (ℕ × ℚ)) (len : ℕ) :
    ∀ (instrs : List Instr) (k : ℕ) (block acc out : List Instr),
      k + instrs.length = len →
      (∀ i ∈ instrs, ¬i.name ∈ NOISE_OPS) →
      (∀ i ∈ block, ¬i.name ∈ NOISE_OPS) →
      t1t2Loop exp od qs t1 t2 instrs k len block acc = .ok out →
      stripNoise out = stripNoise acc ++ emitSpec block instrs := by
  intro instrs
  induction instrs with
  | nil =>
    intro k block acc out hk hni hnb h
    rw [t1t2Loop_nil] at h
    obtain rfl := Except.ok.inj h
    simp [emitSpec]
  | cons i rest ih =>
    intro k block acc out hk hni hnb h
    rw [t1t2Loop] at h
    split at h
    · exact Except.noConfusion h
    · split at h
      · -- i.name ≠ "TICK": the instruction joins the block
        rename_i ht
        have hstep := ih (k + 1) (block ++ [i]) acc out (by simp at hk ⊢; omega)
          (fun j hj => hni j (List.mem_cons_of_mem i hj))
          (by
            intro j hj
            rcases List.mem_append.mp hj with hj2 | hj2
            · exact hnb j hj2
            · obtain rfl := List.mem_singleton.mp hj2
              exact hni j (by simp)) h
        rw [hstep, emitSpec, if_neg ht]
      · -- i is a TICK: the block is flushed
        rename_i hnt
        have ht : i.name = "TICK" := not_not.mp hnt
        split at h
        · exact Except.noConfusion h
        · rename_i noise hn
          have hstep := ih (k + 1) []
            (acc ++ block ++ noise ++ (if k ≠ len - 1 then [tickInstr] else []))
            out (by simp at hk ⊢; omega)
            (fun j hj => hni j (List.mem_cons_of_mem i hj))
            (fun j hj => absurd hj (List.not_mem_nil j)) h
          have hiff : (if k ≠ len - 1 then [tickInstr] else ([] : List Instr)) =
              (if rest = [] then [] else [tickInstr]) := by
            rcases rest with _ | ⟨r, rs⟩
            · simp at hk
              rw [if_neg (by omega), if_pos rfl]
            · have hne : k ≠ len - 1 := by simp at hk; omega
              rw [if_pos hne, if_neg (by simp)]
          rw [hiff] at hstep
          rw [hstep, emitSpec, if_pos ht]
          rw [stripNoise_append, stripNoise_append, stripNoise_append,
            stripNoise_eq_self hnb,
            noiseBlock_strip exp t1 t2 (maxDuration od block) qs noise hn]
          have htick : stripNoise (if rest = [] then ([] : List Instr) else [tickInstr]) =
              (if rest = [] then [] else [tickInstr]) := by
            rcases rest with _ | ⟨r, rs⟩ <;> rfl
          rw [htick]
          simp

theorem add_t1t2_strip (exp : ℚ → ℚ) (circuit : List Instr) (t1 t2 : List (ℕ × ℚ))
    (od : List (String × ℚ)) (out : List Instr)
    (hnf : ∀ i ∈ circuit, ¬i.name ∈ NOISE_OPS)
    (hticks : ∀ j ∈ circuit, j.name = "TICK" → j = tickInstr)
    (h : add_t1t2_noise exp circuit t1 t2 od = .ok out) :
    stripNoise out = circuit := by
  rw [add_t1t2_noise] at h
  split at h
  · exact Except.noConfusion h
  · split_ifs at h
    have hclean : ∀ i ∈ circuit ++ [tickInstr], ¬i.name ∈ NOISE_OPS := by
      intro i hi
      rcases List.mem_append.mp hi with hi2 | hi2
      · exact hnf i hi2
      · obtain rfl := List.mem_singleton.mp hi2
        decide
    have hs := t1t2Loop_strip exp od (measuredQubits circuit) t1 t2
      (circuit ++ [tickInstr]).length (circuit ++ [tickInstr]) 0 [] [] out
      (by simp) hclean (fun j hj => absurd hj (List.not_mem_nil j)) h
    rw [hs, emitSpec_append_tick circuit [] hticks]
    rfl

theorem idle_strip (exp : ℚ → ℚ) (setup : Setup) (d : ℚ) :
    ∀ (qs : List ℕ) (l : List Instr),
      DecoherenceModel.idle exp setup qs d = .ok l → stripNoise l = [] := by
  intro qs
  induction qs with
  | nil =>
    intro l h
    obtain rfl := Except.ok.inj h
    rfl
  | cons q rest ih =>
    intro l h
    rw [DecoherenceModel.idle] at h
    split at h
    · exact Except.noConfusion h
    · split at h
      · exact Except.noConfusion h
      · split at h
        · exact Except.noConfusion h
        · split at h
          · exact Except.noConfusion h
          · rename_i more h4
            obtain rfl := Except.ok.inj h
            rw [stripNoise_pauli]
            exact ih more h4

theorem generic_op_strip (exp : ℚ → ℚ) (setup : Setup) {name : String}
    {qubits : List ℕ} {l : List Instr} (hname : ¬name ∈ NOISE_OPS)
    (h : DecoherenceModel.generic_op exp setup name qubits = .ok l) :
    stripNoise l = [⟨ name, qubits, []⟩] := by
  rw [DecoherenceModel.generic_op] at h
  split at h
  · exact Except.noConfusion h
  · split at h
    · exact Except.noConfusion h
    · rename_i idles hidle
      obtain rfl := Except.ok.inj h
      rw [stripNoise, List.filter_cons, if_pos (by simpa using hname)]
      rw [show List.filter (fun i => !(NOISE_OPS.contains i.name)) idles = stripNoise idles from rfl]
      rw [idle_strip exp setup _ qubits idles hidle]

theorem stimLoop_strip (exp : ℚ → ℚ) (setup : Setup) (qinds : List ℕ) :
    ∀ (instrs : List Instr) (active : List ℕ) (ld : Option ℚ) (acc out : List Instr),
      (∀ i ∈ instrs, ¬i.name ∈ NOISE_OPS ∧
        (¬GATES_ANNOTATION_OPS.contains i.name = true → i.args = [])) →
      stimLoop exp setup qinds instrs active ld acc = .ok out →
      stripNoise out = stripNoise acc ++ instrs := by
  intro instrs
  induction instrs with
  | nil =>
    intro active ld acc out _ h
    obtain rfl := Except.ok.inj h
    simp
  | cons i rest ih =>
    intro active ld acc out hcl h
    rw [stimLoop.eq_def] at h
    simp only [] at h
    split at h
    · -- annotation instruction
      rename_i hann
      split at h
      · -- TICK
        rename_i ht
        split at h
        · -- a recorded layer duration: idle noise is flushed
          split at h
          · exact Except.noConfusion h
          · rename_i noise hn
            have hstep := ih [] none (acc ++ noise ++ [i]) out
              (fun j hj => hcl j (List.mem_cons_of_mem i hj)) h
            rw [hstep, stripNoise_append, stripNoise_append,
              idle_strip exp setup _ _ noise hn,
              stripNoise_eq_self (l := [i]) (by
                intro j hj
                obtain rfl := List.mem_singleton.mp hj
                exact (hcl j (by simp)).1)]
            simp
        · have hstep := ih active none (acc ++ [i]) out
            (fun j hj => hcl j (List.mem_cons_of_mem i hj)) h
          rw [hstep, stripNoise_append,
            stripNoise_eq_self (l := [i]) (by
              intro j hj
              obtain rfl := List.mem_singleton.mp hj
              exact (hcl j (by simp)).1)]
          simp
      · have hstep := ih active ld (acc ++ [i]) out
          (fun j hj => hcl j (List.mem_cons_of_mem i hj)) h
        rw [hstep, stripNoise_append,
          stripNoise_eq_self (l := [i]) (by
            intro j hj
            obtain rfl := List.mem_singleton.mp hj
            exact (hcl j (by simp)).1)]
        simp
    · -- active instruction
      rename_i hann
      split at h
      · exact Except.noConfusion h
      · rename_i d hl
        split at h
        · exact Except.noConfusion h
        · split at h
          · exact Except.noConfusion h
          · split at h
            · exact Except.noConfusion h
            · rename_i ops hop
              have hstep := ih (i.targets ++ active) (some d) (acc ++ ops) out
                (fun j hj => hcl j (List.mem_cons_of_mem i hj)) h
              have hiname : ¬i.name ∈ NOISE_OPS := (hcl i (by simp)).1
              have hargs : i.args = [] := (hcl i (by simp)).2 hann
              have hops := generic_op_strip exp setup hiname hop
              rw [hstep, stripNoise_append, hops]
              have hin : (⟨ i.name, i.targets, []⟩ : Instr) = i := by
                cases i with
                | mk n t a =>
                  simp at hargs
                  simp [hargs]
              rw [hin]
              simp

/-- C4: for noise-free input circuits (whose active instructions carry no
gate arguments and whose TICKs are canonical, as stim guarantees),
whenever the noise-injection entry points return, stripping all stochastic
instructions from the result yields exactly the original circuit — for
add_t1t2_noise and for add_noise_to_stim alike. -/
theorem C4_roundtrip (exp : ℚ → ℚ) (circuit : List Instr) (t1 t2 : List (ℕ × ℚ))
    (od : List (String × ℚ)) (setup : Setup)
    (hnf : ∀ i ∈ circuit, ¬i.name ∈ NOISE_OPS)
    (hargs : ∀ i ∈ circuit, ¬GATES_ANNOTATION_OPS.contains i.name = true → i.args = [])
    (hticks : ∀ j ∈ circuit, j.name = "TICK" → j = tickInstr) :
    (∀ out, add_t1t2_noise exp circuit t1 t2 od = .ok out → stripNoise out = circuit) ∧
    (∀ out, add_noise_to_stim exp circuit setup = .ok out → stripNoise out = circuit) := by
  constructor
  · intro out h
    exact add_t1t2_strip exp circuit t1 t2 od out hnf hticks h
  · intro out h
    rw [add_noise_to_stim] at h
    split at h
    · exact Except.noConfusion h
    · have hs := stimLoop_strip exp setup (List.range (numQubits circuit)) circuit
        [] none [] out (fun i hi => ⟨hnf i hi, hargs i hi⟩) h
      simpa using hs

theorem C4_roundtrip_witness :
    add_t1t2_noise e0 [⟨ "M", [0], []⟩, tickInstr] [(0, 2)] [(0, 2)] [("M", 1)] =
      .ok [⟨ "M", [0], []⟩, ⟨ "PAULI_CHANNEL_1", [0], [1/4, 1/4, 1/4]⟩, tickInstr,
        ⟨ "PAULI_CHANNEL_1", [0], [0, 0, 0]⟩] ∧
    stripNoise [⟨ "M", [0], []⟩, ⟨ "PAULI_CHANNEL_1", [0], [1/4, 1/4, 1/4]⟩, tickInstr,
        ⟨ "PAULI_CHANNEL_1", [0], [0, 0, 0]⟩] = [⟨ "M", [0], []⟩, tickInstr] ∧
    add_noise_to_stim e0 [⟨ "M", [0], []⟩, tickInstr] (Setup.mk [2] [2] [("M", 1)]) =
      .ok [⟨ "M", [0], []⟩, ⟨ "PAULI_CHANNEL_1", [0], [1/4, 1/4, 1/4]⟩, tickInstr] ∧
    stripNoise [⟨ "M", [0], []⟩, ⟨ "PAULI_CHANNEL_1", [0], [1/4, 1/4, 1/4]⟩, tickInstr] =
      [⟨ "M", [0], []⟩, tickInstr] := by
  have hT : add_t1t2_noise e0 [⟨ "M", [0], []⟩, tickInstr] [(0, 2)] [(0, 2)] [("M", 1)] =
      .ok [⟨ "M", [0], []⟩, ⟨ "PAULI_CHANNEL_1", [0], [1/4, 1/4, 1/4]⟩, tickInstr,
        ⟨ "PAULI_CHANNEL_1", [0], [0, 0, 0]⟩] := by
    rw [add_t1t2_noise_checks e0 _ _ _ _
      (by norm_num [checkT1T2, dlookup, List.lookup]) (by rfl) (by decide) (by rfl) (by rfl)]
    rw [show measuredQubits [⟨ "M", [0], []⟩, tickInstr] = [0] from rfl]
    simp only [List.cons_append, List.nil_append]
    rw [t1t2Loop_cons_op e0 _ _ _ _ _ _ _ _ _ (by rfl) (by decide)]
    have hnb : noiseBlock e0 [0] [(0, 2)] [(0, 2)]
        (maxDuration [("M", (1:ℚ))] ([] ++ [⟨ "M", [0], []⟩])) =
        .ok [⟨ "PAULI_CHANNEL_1", [0], [1/4, 1/4, 1/4]⟩] := by
      rw [show maxDuration [("M", (1:ℚ))] ([] ++ [⟨ "M", [0], []⟩]) = 1 from rfl]
      refine noiseBlock_cons e0 _ _ _ _ (by rfl) (by rfl) ?_ (noiseBlock_nil e0 _ _ _)
      rw [get_perror_from_t1t2]
      norm_num [e0]
    rw [t1t2Loop_cons_tick e0 _ _ _ _ _ _ _ _ _ (by rfl) (by rfl) hnb]
    have hnb2 : noiseBlock e0 [0] [(0, 2)] [(0, 2)] (maxDuration [("M", (1:ℚ))] []) =
        .ok [⟨ "PAULI_CHANNEL_1", [0], [0, 0, 0]⟩] := by
      refine noiseBlock_cons e0 _ _ _ _ (by rfl) (by rfl) ?_ (noiseBlock_nil e0 _ _ _)
      rw [show maxDuration [("M", (1:ℚ))] [] = 0 from rfl, get_perror_from_t1t2]
      norm_num
    rw [t1t2Loop_cons_tick e0 _ _ _ _ _ _ _ _ _ (by rfl) (by rfl) hnb2]
    rw [t1t2Loop_nil]
    norm_num [tickInstr]
  have hS : add_noise_to_stim e0 [⟨ "M", [0], []⟩, tickInstr]
      (Setup.mk [2] [2] [("M", 1)]) =
      .ok [⟨ "M", [0], []⟩, ⟨ "PAULI_CHANNEL_1", [0], [1/4, 1/4, 1/4]⟩, tickInstr] := by
    rw [add_noise_to_stim_check e0 _ _ (by rfl)]
    have hidle : DecoherenceModel.idle e0 (Setup.mk [2] [2] [("M", 1)]) [0] 1 =
        .ok [⟨ "PAULI_CHANNEL_1", [0], [1/4, 1/4, 1/4]⟩] := by
      refine idle_cons e0 _ _ _ (by rfl) (by rfl) ?_ (idle_nil e0 _ _)
      rw [idle_error_probs]
      norm_num [e0]
    have hop : DecoherenceModel.generic_op e0 (Setup.mk [2] [2] [("M", 1)]) "M" [0] =
        .ok [⟨ "M", [0], []⟩, ⟨ "PAULI_CHANNEL_1", [0], [1/4, 1/4, 1/4]⟩] :=
      generic_op_ok e0 _ (by rfl) hidle
    rw [stimLoop_op e0 _ _ _ _ _ _ (by decide) (by rfl) (Or.inl rfl) (by rfl) hop]
    have hn2 : DecoherenceModel.idle e0 (Setup.mk [2] [2] [("M", 1)])
        (pyDiff (List.range (numQubits [⟨ "M", [0], []⟩, tickInstr])) ([0] ++ [])) 1 =
        .ok [] := by
      rw [show pyDiff (List.range (numQubits [⟨ "M", [0], []⟩, tickInstr])) ([0] ++ []) =
        ([] : List ℕ) from rfl]
      exact idle_nil e0 _ _
    rw [stimLoop_tick_some e0 _ _ _ _ _ (by rfl) hn2]
    rw [stimLoop_nil]
    norm_num [tickInstr]
  refine ⟨hT, ?_, hS, ?_⟩
  · exact (C4_roundtrip e0 [⟨ "M", [0], []⟩, tickInstr] [(0, 2)] [(0, 2)] [("M", 1)]
      (Setup.mk [2] [2] [("M", 1)]) (by decide) (by decide) (by decide)).1 _ hT
  · exact (C4_roundtrip e0 [⟨ "M", [0], []⟩, tickInstr] [(0, 2)] [(0, 2)] [("M", 1)]
      (Setup.mk [2] [2] [("M", 1)]) (by decide) (by decide) (by decide)).2 _ hS

theorem mem_pyDiff {a b : List ℕ} {q : ℕ} : q ∈ pyDiff a b ↔ q ∈ a ∧ ¬q ∈ b := by
  simp [pyDiff]

theorem mem_foldl_targets :
    ∀ (ops : List Instr) (init : List ℕ) (q : ℕ),
      q ∈ ops.foldl (fun a op => op.targets ++ a) init ↔
        q ∈ init ∨ ∃ op ∈ ops, q ∈ op.targets := by
  intro ops
  induction ops with
  | nil => simp
  | cons op more ih =>
    intro init q
    rw [List.foldl_cons, ih]
    simp [List.mem_append]
    tauto

theorem stimLoop_layer (exp : ℚ → ℚ) (setup : Setup) (qinds : List ℕ) (d : ℚ)
    (f : Instr → List Instr) (rest2 : List Instr) :
    ∀ (ops : List Instr) (active : List ℕ) (acc idleC : List Instr),
      (∀ op ∈ ops, ¬GATES_ANNOTATION_OPS.contains op.name = true) →
      (∀ op ∈ ops, setup.gate_durations.lookup op.name = some d) →
      (∀ op ∈ ops, ∀ q ∈ op.targets, ¬q ∈ active) →
      List.Pairwise (fun a b => ∀ q ∈ a.targets, ¬q ∈ b.targets) ops →
      (∀ op ∈ ops, DecoherenceModel.idle exp setup op.targets d = .ok (f op)) →
      DecoherenceModel.idle exp setup
        (pyDiff qinds (ops.foldl (fun a op => op.targets ++ a) active)) d = .ok idleC →
      stimLoop exp setup qinds (ops ++ [tickInstr] ++ rest2) active (some d) acc =
        stimLoop exp setup qinds rest2 [] none
          (acc ++ (ops.flatMap fun op => ⟨ op.name, op.targets, []⟩ :: f op) ++
            idleC ++ [tickInstr]) := by
  intro ops
  induction ops with
  | nil =>
    intro active acc idleC _ _ _ _ _ hcomp
    simp only [List.foldl_nil] at hcomp
    simp only [List.nil_append, List.singleton_append]
    rw [stimLoop_tick_some exp setup qinds rest2 active acc rfl hcomp]
    simp
  | cons op more ih =>
    intro active acc idleC hann hdur hdisj hpair hidle hcomp
    have hsl : slookup setup.gate_durations op.name = .ok d := by
      rw [slookup, hdur op (by simp)]
    have hop : DecoherenceModel.generic_op exp setup op.name op.targets =
        .ok (⟨ op.name, op.targets, []⟩ :: f op) :=
      generic_op_ok exp setup hsl (hidle op (by simp))
    have hc : pyInter active op.targets = [] := by
      rw [pyInter, List.filter_eq_nil_iff]
      intro q hq hmem
      exact hdisj op (by simp) q (by simpa using hmem) hq
    simp only [List.cons_append]
    rw [stimLoop_op exp setup qinds _ _ _ _ (hann op (by simp)) hsl (Or.inr rfl) hc hop]
    rw [List.foldl_cons] at hcomp
    have hdisj2 : ∀ op2 ∈ more, ∀ q ∈ op2.targets, ¬q ∈ op.targets ++ active := by
      intro op2 h2 q hq hmem
      rcases List.mem_append.mp hmem with hm | hm
      · exact (List.pairwise_cons.mp hpair).1 op2 h2 q hm hq
      · exact hdisj op2 (by simp [h2]) q hq hm
    have ihr := ih (op.targets ++ active) (acc ++ (⟨ op.name, op.targets, []⟩ :: f op)) idleC
      (fun o ho => hann o (by simp [ho])) (fun o ho => hdur o (by simp [ho]))
      hdisj2 (List.pairwise_cons.mp hpair).2 (fun o ho => hidle o (by simp [ho])) hcomp
    simp only [List.cons_append] at ihr
    rw [ihr]
    simp

/-- C5 (amended): for a sealed layer processed from the clean loop state
(empty active set, no recorded dwell time — the state of add_noise_to_stim
at circuit start and after every sealed TICK, for any accumulated output
`acc` and any continuation `rest2`), the layer loop emits each active
operation followed immediately by channel instructions on that
operation's own target qubits (the generic_op hook couples every gate
with idle noise on its targets), and only then, at the TICK, channel
instructions for exactly the qubits of the circuit that no operation of
the layer targets (the second conjunct characterizes that index list by
membership; its emission order is the iteration order of a Python set
difference, which the language leaves unspecified, so no order is
asserted), parameterized by the layer's dwell time and each qubit's own
T1/T2, placed before the TICK; the loop then continues at the next layer
back in the clean state. -/
theorem C5_layer_output_amended (exp : ℚ → ℚ) (setup : Setup) (qinds : List ℕ)
    (op0 : Instr) (ops rest2 acc : List Instr) (d : ℚ) (f : Instr → List Instr)
    (idleC : List Instr)
    (hann : ∀ op ∈ op0 :: ops, ¬GATES_ANNOTATION_OPS.contains op.name = true)
    (hdur : ∀ op ∈ op0 :: ops, setup.gate_durations.lookup op.name = some d)
    (hpair : List.Pairwise (fun a b => ∀ q ∈ a.targets, ¬q ∈ b.targets) (op0 :: ops))
    (hidle : ∀ op ∈ op0 :: ops,
      DecoherenceModel.idle exp setup op.targets d = .ok (f op))
    (hcomp : DecoherenceModel.idle exp setup
      (pyDiff qinds ((op0 :: ops).foldl (fun a op => op.targets ++ a) []))
      d = .ok idleC) :
    stimLoop exp setup qinds ((op0 :: ops) ++ [tickInstr] ++ rest2) [] none acc =
      stimLoop exp setup qinds rest2 [] none
        (acc ++ ((op0 :: ops).flatMap fun op => ⟨ op.name, op.targets, []⟩ :: f op) ++
          idleC ++ [tickInstr]) ∧
    ∀ q : ℕ, q ∈ pyDiff qinds ((op0 :: ops).foldl (fun a op => op.targets ++ a) []) ↔
      (q ∈ qinds ∧ ∀ op ∈ op0 :: ops, ¬q ∈ op.targets) := by
  constructor
  · have hsl : slookup setup.gate_durations op0.name = .ok d := by
      rw [slookup, hdur op0 (by simp)]
    have hop : DecoherenceModel.generic_op exp setup op0.name op0.targets =
        .ok (⟨ op0.name, op0.targets, []⟩ :: f op0) :=
      generic_op_ok exp setup hsl (hidle op0 (by simp))
    simp only [List.cons_append]
    rw [stimLoop_op exp setup qinds _ [] none _ (hann op0 (by simp)) hsl
      (Or.inl rfl) rfl hop]
    rw [List.foldl_cons] at hcomp
    have hdisj : ∀ op ∈ ops, ∀ q ∈ op.targets, ¬q ∈ op0.targets ++ [] := by
      intro op ho q hq hmem
      rw [List.append_nil] at hmem
      exact (List.pairwise_cons.mp hpair).1 op ho q hmem hq
    rw [stimLoop_layer exp setup qinds d f rest2 ops (op0.targets ++ [])
      (acc ++ (⟨ op0.name, op0.targets, []⟩ :: f op0)) idleC
      (fun o ho => hann o (by simp [ho])) (fun o ho => hdur o (by simp [ho]))
      hdisj (List.pairwise_cons.mp hpair).2 (fun o ho => hidle o (by simp [ho])) hcomp]
    simp
  · intro q
    rw [mem_pyDiff, mem_foldl_targets]
    simp

theorem C5_layer_output_amended_witness :
    add_noise_to_stim e0 [⟨ "H", [0], []⟩, tickInstr] (Setup.mk [1] [1] [("H", 1)]) =
      .ok [⟨ "H", [0], []⟩, ⟨ "PAULI_CHANNEL_1", [0], [1/4, 1/4, 1/4]⟩, tickInstr] ∧
    (0 ∈ pyDiff [0]
        (([(⟨ "H", [0], []⟩ : Instr)]).foldl (fun a op => op.targets ++ a) []) ↔
      (0 ∈ [0] ∧ ∀ op ∈ [(⟨ "H", [0], []⟩ : Instr)], ¬0 ∈ op.targets)) := by
  have h := C5_layer_output_amended e0 (Setup.mk [1] [1] [("H", 1)]) [0]
    ⟨ "H", [0], []⟩ [] [] [] 1
    (fun _ => [⟨ "PAULI_CHANNEL_1", [0], [1/4, 1/4, 1/4]⟩]) []
    (by decide)
    (by intro op hop; obtain rfl := List.mem_singleton.mp hop; rfl)
    (by simp)
    (by
      intro op hop
      obtain rfl := List.mem_singleton.mp hop
      refine idle_cons e0 _ _ _ (by rfl) (by rfl) ?_ (idle_nil e0 _ _)
      rw [idle_error_probs]
      norm_num [e0])
    (by rfl)
  constructor
  · have h1 := h.1
    rw [stimLoop_nil] at h1
    rw [add_noise_to_stim_check e0 _ _ (by rfl)]
    rw [show List.range (numQubits [⟨ "H", [0], []⟩, tickInstr]) = [0] from rfl]
    simpa using h1
  · exact h.2 0

/-- C5 counterexample: a layer consisting of H on qubit 0 in a one-qubit
circuit has an empty set of untargeted qubits, so under the claim the
emitted layer would contain no stochastic-channel operation at all; the
actual output contains one channel operation, on the targeted qubit 0
(emitted by generic_op right after the gate). -/
theorem C5_layer_output_cex :
    add_noise_to_stim e0 [⟨ "H", [0], []⟩, tickInstr] (Setup.mk [1] [1] [("H", 1)]) =
      .ok [⟨ "H", [0], []⟩, ⟨ "PAULI_CHANNEL_1", [0], [1/4, 1/4, 1/4]⟩, tickInstr] ∧
    pyDiff (List.range (numQubits [⟨ "H", [0], []⟩, tickInstr])) [0] = [] ∧
    ([⟨ "H", [0], []⟩, ⟨ "PAULI_CHANNEL_1", [0], [1/4, 1/4, 1/4]⟩, tickInstr] :
      List Instr).countP (fun i => i.name == "PAULI_CHANNEL_1") = 1 := by
  refine ⟨?_, rfl, rfl⟩
  rw [add_noise_to_stim_check e0 _ _ (by rfl)]
  have hidle : DecoherenceModel.idle e0 (Setup.mk [1] [1] [("H", 1)]) [0] 1 =
      .ok [⟨ "PAULI_CHANNEL_1", [0], [1/4, 1/4, 1/4]⟩] := by
    refine idle_cons e0 _ _ _ (by rfl) (by rfl) ?_ (idle_nil e0 _ _)
    rw [idle_error_probs]
    norm_num [e0]
  rw [stimLoop_op e0 _ _ _ _ _ _ (by decide) (by rfl) (Or.inl rfl) (by rfl)
    (generic_op_ok e0 _ (by rfl) hidle)]
  rw [stimLoop_tick_some e0 _ _ _ _ _ (by rfl) (by rfl)]
  rw [stimLoop_nil]
  norm_num [tickInstr]
